import Mathlib

/-!
Verification development for the zerovector5-cerebellum memory/persona core.

The definitions below are a shallow embedding of the TypeScript source:
JavaScript numbers are modelled as `ℚ` (and as `ℝ` where the code applies
`Math.exp` / `Math.sqrt`), database rows as Lean structures, and the
relational store as a list of rows.  Each definition is named after the
source method it embeds and translated line by line from that method.
-/

namespace ZV5

/-! Section 1: string helpers shared by several source methods.
JavaScript `String.prototype.includes`, `toLowerCase`, `split(/\W+/)` and
`split(' ')` are modelled on the underlying character lists. -/

/-- Character-list version of "needle is a starting segment of hay". -/
def charListStarts : List Char → List Char → Bool
  | [], _ => true
  | _ :: _, [] => false
  | a :: as, b :: bs => a == b && charListStarts as bs

/-- Character-list version of "needle occurs as a contiguous segment of hay". -/
def charListHasSeg (needle : List Char) : List Char → Bool
  | [] => needle.isEmpty
  | c :: rest => charListStarts needle (c :: rest) || charListHasSeg needle rest

/-- Model of JavaScript `s.includes(sub)` (substring containment). -/
def strIncludes (s sub : String) : Bool :=
  charListHasSeg sub.toList s.toList

/-- Model of JavaScript `s.toLowerCase()` (per-character ASCII lowering). -/
def strToLower (s : String) : String :=
  String.mk (s.toList.map Char.toLower)

/-- A JavaScript word character, as matched by the regex class `\w`. -/
def isWordChar (c : Char) : Bool := c.isAlphanum || c == '_'

/-- Helper for `splitWords`: scans the characters, accumulating the current
word (in reverse) and emitting it whenever a non-word character is hit. -/
def splitWordsAux : List Char → List Char → List String
  | [], acc => if acc.isEmpty then [] else [String.mk acc.reverse]
  | c :: rest, acc =>
    if isWordChar c then splitWordsAux rest (c :: acc)
    else if acc.isEmpty then splitWordsAux rest acc
    else String.mk acc.reverse :: splitWordsAux rest []

/-- Model of JavaScript `text.split(/\W+/)`, except that the empty fragments
the JS call produces at the borders are dropped here; they are removed by the
`length > 3` filter in the only source call site (`findCommonWords`). -/
def splitWords (s : String) : List String :=
  splitWordsAux s.toList []

/-- Helper for `splitSpacesLen`: split a character list at every single
space, keeping empty fragments, as JavaScript `split(' ')` does. -/
def splitOnSpaces : List Char → List Char → List String
  | [], acc => [String.mk acc.reverse]
  | c :: rest, acc =>
    if c == ' ' then String.mk acc.reverse :: splitOnSpaces rest []
    else splitOnSpaces rest (c :: acc)

/-- Model of `text.split(' ').length`: the number of fragments obtained by
splitting at every single space (empty fragments included, as in JS). -/
def splitSpacesLen (s : String) : ℕ :=
  (splitOnSpaces s.toList []).length

/-- First-occurrence deduplication, the effect of JavaScript
`Array.from(new Set(xs))`. -/
def dedupFirst (l : List String) : List String :=
  l.foldl (fun acc w => if acc.contains w then acc else acc ++ [w]) []

/-! Section 2: SleepCycleManager (src/unnamed/part_002). -/

/-- The four sleep classifications returned by
`SleepCycleManager.determineSleepType`. -/
inductive SleepType where
  | light_processing
  | deep_consolidation
  | rem_integration
  | extended_reorganization
deriving DecidableEq, Repr

/-- Embeds `SleepCycleManager.determineSleepType`: classify a sleep duration
(milliseconds) by converting to hours and comparing against 2/6/12. -/
def determineSleepType (sleepDuration : ℚ) : SleepType :=
  let hours := sleepDuration / (1000 * 60 * 60)
  if hours < 2 then .light_processing
  else if hours < 6 then .deep_consolidation
  else if hours < 12 then .rem_integration
  else .extended_reorganization

/-- Position of a sleep type in the escalating bracket order used by the
classification (light < deep < rem < extended). -/
def SleepType.bracket : SleepType → ℕ
  | .light_processing => 0
  | .deep_consolidation => 1
  | .rem_integration => 2
  | .extended_reorganization => 3

/-! Section 3: ConsciousnessEngine and PersonaCore scalar updates
(src/unnamed/part_002 and src/unnamed/part_003). -/

/-- Embeds `ConsciousnessEngine.clampValue`:
`Math.max(0, Math.min(1, value))`. -/
def clampValue (value : ℚ) : ℚ := max 0 (min 1 value)

/-- The four consciousness scalars of a `consciousness_states` row. -/
structure ConsciousnessScalars where
  selfAwareness : ℚ
  temporalContinuity : ℚ
  socialCognition : ℚ
  metacognition : ℚ
deriving DecidableEq, Repr

/-- A partial adjustment record as passed to
`ConsciousnessEngine.updateConsciousnessLevel` (absent fields keep the
current value, via the `??` fallback in the source). -/
structure ConsciousnessAdjustments where
  selfAwareness : Option ℚ
  temporalContinuity : Option ℚ
  socialCognition : Option ℚ
  metacognition : Option ℚ
deriving DecidableEq, Repr

/-- Embeds the `newState` computation of
`ConsciousnessEngine.updateConsciousnessLevel`: each scalar is the adjustment
(falling back to the current value) passed through `clampValue`.  The source
then writes this state when some scalar moved by more than 0.001; the values
written are exactly these. -/
def updateConsciousnessLevel (current : ConsciousnessScalars)
    (adjustments : ConsciousnessAdjustments) : ConsciousnessScalars where
  selfAwareness := clampValue (adjustments.selfAwareness.getD current.selfAwareness)
  temporalContinuity := clampValue (adjustments.temporalContinuity.getD current.temporalContinuity)
  socialCognition := clampValue (adjustments.socialCognition.getD current.socialCognition)
  metacognition := clampValue (adjustments.metacognition.getD current.metacognition)

/-- Embeds `ConsciousnessEngine.calculateTemporalContinuity`: a step function
of the sleep duration in hours. -/
def calculateTemporalContinuity (sleepDuration : ℚ) : ℚ :=
  let hours := sleepDuration / (1000 * 60 * 60)
  if hours < 1 then min 0.95 (0.8 + 0.15)
  else if hours < 8 then min 0.9 (0.8 + 0.1)
  else if hours < 24 then min 0.85 (0.8 + 0.05)
  else max 0.6 (0.8 - 0.2)

/-- Embeds the consolidation trigger of `PersonaCore.awakePersona`: a pending
consolidation pass runs when `sleepDuration > 30 * 60 * 1000` (strictly more
than 30 minutes of elapsed sleep, in milliseconds). -/
def awakePersonaTriggersConsolidation (sleepDuration : ℚ) : Bool :=
  sleepDuration > 30 * 60 * 1000

/-- Embeds the per-trait write of `PersonaCore.evolvePersonalityFromExperience`:
`newValue = Math.max(0, Math.min(1, currentTrait.value + adjustment))`, which
is then stored via `updatePersonalityTrait`. -/
def evolvedTraitValue (currentValue adjustment : ℚ) : ℚ :=
  max 0 (min 1 (currentValue + adjustment))

/-! Section 4: ProceduralMemory (src/src/core/memory/ProceduralMemory.ts).
The `procedural_skills` table is modelled as a list of rows. -/

/-- A `procedural_skills` row.  `lastUsed` is a millisecond timestamp. -/
structure ProceduralSkill where
  id : String
  name : String
  domain : String
  successRate : ℚ
  contextConditions : List String
  usageCount : ℕ
  lastUsed : ℚ
deriving DecidableEq, Repr

/-- Embeds `ProceduralMemory.contextMatches`: an empty condition list matches
every context; otherwise some condition must substring-match (either
direction, case-insensitive) some context tag. -/
def contextMatches (currentContext : List String)
    (requiredConditions : List String) : Bool :=
  if requiredConditions.isEmpty then true
  else requiredConditions.any fun condition =>
    currentContext.any fun ctx =>
      let ctxLower := strToLower ctx
      let condLower := strToLower condition
      strIncludes ctxLower condLower || strIncludes condLower ctxLower

/-- The `ORDER BY success_rate DESC, usage_count DESC` comparison used by
`getApplicableSkills`. -/
def skillOrder (a b : ProceduralSkill) : Bool :=
  decide (b.successRate < a.successRate ∨
    (a.successRate = b.successRate ∧ b.usageCount ≤ a.usageCount))

/-- Embeds `ProceduralMemory.getApplicableSkills`: filter by persona (implicit
in the store list) and optional domain, order by success rate then usage
count, then keep the skills whose context conditions match. -/
def getApplicableSkills (store : List ProceduralSkill) (context : List String)
    (domain : Option String) : List ProceduralSkill :=
  let filtered : List ProceduralSkill := match domain with
    | some d => store.filter (fun s => s.domain == d)
    | none => store
  let ordered := filtered.mergeSort skillOrder
  ordered.filter fun skill => contextMatches context skill.contextConditions

/-- Embeds the `SELECT ... WHERE id = ?` lookup at the start of
`ProceduralMemory.updateSkillPerformance`. -/
def findSkill (store : List ProceduralSkill) (skillId : String) :
    Option ProceduralSkill :=
  store.find? fun s => s.id == skillId

/-- Embeds the exponential-smoothing computation of
`ProceduralMemory.updateSkillPerformance` (learning rate 0.1). -/
def newSuccessRate (currentSuccessRate : ℚ) (wasSuccessful : Bool) : ℚ :=
  let alpha : ℚ := 0.1
  if wasSuccessful then currentSuccessRate + alpha * (1 - currentSuccessRate)
  else currentSuccessRate + alpha * (0 - currentSuccessRate)

/-- Embeds `ProceduralMemory.updateSkillPerformance` as a store transformer.
When the skill id is absent the source logs a warning and returns normally
(no throw, no write), so the model returns `.ok` with the store unchanged;
the `Except` layer carries the storage failures the source can rethrow,
which are outside this model.  When found, the matching row is updated with
the clamped smoothed rate, incremented usage count and new timestamp. -/
def updateSkillPerformance (store : List ProceduralSkill) (skillId : String)
    (wasSuccessful : Bool) (now : ℚ) : Except String (List ProceduralSkill) :=
  match findSkill store skillId with
  | none => .ok store
  | some skill =>
    let totalAttempts := skill.usageCount + 1
    let rate := newSuccessRate skill.successRate wasSuccessful
    .ok (store.map fun s =>
      if s.id == skillId then
        { s with successRate := max 0 (min 1 rate),
                 usageCount := totalAttempts,
                 lastUsed := now }
      else s)

/-! Section 5: SemanticMemory (src/src/core/memory/SemanticMemory.ts).
The `semantic_knowledge` table is a list of rows; the `content` column holds
the JSON-serialized payload (the source stores `JSON.stringify(content)` and
compares `JSON.stringify`s of the parsed payloads, which round-trips). -/

/-- A `semantic_knowledge` row. -/
structure SemanticKnowledge where
  id : String
  domain : String
  concept : String
  content : String
  confidenceLevel : ℚ
  source : String
  relationships : List String
deriving DecidableEq, Repr

/-- Embeds the `UPDATE semantic_knowledge SET confidence_level = ?` write of
`SemanticMemory.updateKnowledgeConfidence`: the caller-supplied value is
stored as-is, with no clamping in the source method. -/
def updateKnowledgeConfidence (store : List SemanticKnowledge)
    (knowledgeId : String) (newConfidence : ℚ) : List SemanticKnowledge :=
  store.map fun k =>
    if k.id == knowledgeId then { k with confidenceLevel := newConfidence }
    else k

/-- Embeds `SemanticMemory.findCommonWords`: words of more than three
characters (split at non-word characters, deduplicated as by a JS `Set`)
occurring in both texts. -/
def findCommonWords (text1 text2 : String) : List String :=
  let words1 := dedupFirst ((splitWords text1).filter fun w => w.length > 3)
  let words2 := (splitWords text2).filter fun w => w.length > 3
  words1.filter fun w => words2.contains w

/-- The content-overlap ratio inside
`SemanticMemory.calculateConceptSimilarity`: common-word count over the
larger space-split length of the two lowercased serialized contents. -/
def contentSimilarityOf (k1 k2 : SemanticKnowledge) : ℚ :=
  ((findCommonWords (strToLower k1.content) (strToLower k2.content)).length : ℚ) /
    (max (splitSpacesLen (strToLower k1.content))
      (splitSpacesLen (strToLower k2.content)) : ℚ)

/-- Embeds `SemanticMemory.calculateConceptSimilarity`:
0.7 × (case-insensitive concept-name match) + 0.3 × content overlap. -/
def calculateConceptSimilarity (k1 k2 : SemanticKnowledge) : ℚ :=
  (if strToLower k1.concept == strToLower k2.concept then (1 : ℚ) else 0) * 0.7 +
    contentSimilarityOf k1 k2 * 0.3

/-- Embeds `SemanticMemory.findConsolidationCandidates`: scan the knowledge
list in order; each yet-unprocessed entry collects the later same-domain
entries whose similarity to it exceeds 0.8; groups of size one are
dropped. -/
def findConsolidationCandidates :
    List SemanticKnowledge → List (List SemanticKnowledge)
  | [] => []
  | k :: rest =>
    let isSimilar := fun o =>
      o.domain == k.domain && decide (calculateConceptSimilarity k o > 0.8)
    let similar := rest.filter isSimilar
    let remaining := rest.filter fun o => !(isSimilar o)
    (if similar.isEmpty then [] else [k :: similar]) ++
      findConsolidationCandidates remaining
termination_by l => l.length
decreasing_by
  simp only [List.length_cons]
  exact Nat.lt_succ_of_le (List.length_filter_le _ _)

/-- Serialization of the merged content object
`{ primary: ..., additional: [...] }` built by `mergeKnowledgeEntries`. -/
def mergedContentStr (primary : String) (additional : List String) : String :=
  "\x7b\"primary\":" ++ primary ++ ",\"additional\":[" ++
    String.intercalate "," additional ++ "]\x7d"

/-- The `reduce` in `SemanticMemory.mergeKnowledgeEntries` picking the entry
with the highest confidence (earliest entry wins ties). -/
def primaryOf (h : SemanticKnowledge) (t : List SemanticKnowledge) :
    SemanticKnowledge :=
  t.foldl
    (fun prev current =>
      if current.confidenceLevel > prev.confidenceLevel then current else prev)
    h

/-- Embeds `SemanticMemory.mergeKnowledgeEntries`: for a group of at least
two entries, returns the updated primary row (merged content, union of
relationships, confidence boosted by 0.05 per absorbed entry and capped at 1)
together with the ids deleted from the store and the vector index. -/
def mergeKnowledgeEntries (entries : List SemanticKnowledge) :
    Option (SemanticKnowledge × List String) :=
  if entries.length < 2 then none
  else
    match entries with
    | [] => none
    | h :: t =>
      let primary := primaryOf h t
      let others := entries.filter fun e => e.id != primary.id
      let mergedContent := mergedContentStr primary.content (others.map (·.content))
      let allRelationships :=
        dedupFirst (primary.relationships ++ others.flatMap (·.relationships))
      let newConfidence :=
        min 1 (primary.confidenceLevel + (others.length : ℚ) * 0.05)
      some ({ primary with
                content := mergedContent,
                relationships := allRelationships,
                confidenceLevel := newConfidence },
            others.map (·.id))

/-- Applies one merge group to the relational store and the vector index
(modelled as the list of indexed ids): the absorbed rows are deleted from
both and the primary row is replaced by its updated version. -/
def applyMerge (store : List SemanticKnowledge) (vec : List String)
    (group : List SemanticKnowledge) : List SemanticKnowledge × List String :=
  match mergeKnowledgeEntries group with
  | none => (store, vec)
  | some (updated, deletedIds) =>
    ((store.filter fun e => !(deletedIds.contains e.id)).map
       (fun e => if e.id == updated.id then updated else e),
     vec.filter fun i => !(deletedIds.contains i))

/-- Embeds `SemanticMemory.consolidateKnowledge`: find the consolidation
candidate groups and merge each one into the store and vector index. -/
def consolidateKnowledge (store : List SemanticKnowledge) (vec : List String) :
    List SemanticKnowledge × List String :=
  (findConsolidationCandidates store).foldl
    (fun acc group => applyMerge acc.1 acc.2 group) (store, vec)

/-! Section 6: EpisodicMemory and MemoryConsolidation
(src/src/core/memory/EpisodicMemory.ts and src/unnamed/part_005).
Importance scores pass through `Math.exp`, so they are modelled in `ℝ`;
timestamps stay in `ℚ` (milliseconds since the epoch). -/

/-- An `episodic_memories` row (the fields the consolidation passes read). -/
structure Episode where
  id : String
  timestamp : ℚ
  eventType : String
  emotionalValence : ℚ
  importanceScore : ℝ
  participants : List String
  isConsolidated : Bool

/-- Hour-of-day of a millisecond timestamp, modelling
`new Date(t).getHours()` (UTC; the source uses the server-local hour, which
only shifts which time-of-day tag is produced). -/
def hourOf (t : ℚ) : ℤ := ⌊t / 3600000⌋ % 24

/-- Clamp a real to the unit interval: `Math.max(0, Math.min(1, x))`. -/
noncomputable def clamp01 (x : ℝ) : ℝ := max 0 (min 1 x)

/-- Embeds `MemoryConsolidation.identifyBasicPatterns`: one time-of-day tag,
an event-type tag for a non-empty (truthy) event type, an emotional tag for
strong valence, and a tag for already-high importance. -/
noncomputable def identifyBasicPatterns (episode : Episode) : List String :=
  (if hourOf episode.timestamp < 6 then ["late_night_activity"]
   else if hourOf episode.timestamp < 12 then ["morning_activity"]
   else if hourOf episode.timestamp < 18 then ["afternoon_activity"]
   else ["evening_activity"]) ++
  (if episode.eventType ≠ "" then ["event_type_" ++ episode.eventType] else []) ++
  (if episode.emotionalValence > 0.5 then ["positive_emotional_experience"]
   else if episode.emotionalValence < -0.5 then ["negative_emotional_experience"]
   else []) ++
  (if episode.importanceScore > 0.7 then ["high_importance_event"] else [])

/-- Embeds `MemoryConsolidation.calculateConsolidatedImportance`: pattern
bonuses (+0.05 positive, +0.02 high importance, +0.08 negative), 60-day
exponential decay from the episode age at time `now`, plus a reinforcement
bonus of 0.01 per identified pattern capped at 0.05, clamped to [0,1]. -/
noncomputable def calculateConsolidatedImportance (now : ℚ) (episode : Episode)
    (patterns : List String) : ℝ :=
  let importance := episode.importanceScore +
    (if "positive_emotional_experience" ∈ patterns then (0.05 : ℝ) else 0) +
    (if "high_importance_event" ∈ patterns then (0.02 : ℝ) else 0) +
    (if "negative_emotional_experience" ∈ patterns then (0.08 : ℝ) else 0)
  let ageInDays : ℚ := (now - episode.timestamp) / (1000 * 60 * 60 * 24)
  let decayed := importance * Real.exp (-(ageInDays : ℝ) / 60)
  let patternBonus : ℝ := min ((patterns.length : ℝ) * 0.01) 0.05
  max 0 (min 1 (decayed + patternBonus))

/-- An entry of the `importanceAdjustments` report list built by
`MemoryConsolidation.consolidateRecent`. -/
structure ImportanceAdjustment where
  memoryId : String
  oldScore : ℝ
  newScore : ℝ

/-- One loop iteration of `MemoryConsolidation.consolidateRecent`: recompute
an episode's importance and persist it (recording an adjustment) only when
it moved by more than 0.05. -/
noncomputable def consolidateRecentStep (now : ℚ) (episode : Episode) :
    Episode × List ImportanceAdjustment :=
  let patterns := identifyBasicPatterns episode
  let newImportance := calculateConsolidatedImportance now episode patterns
  if |newImportance - episode.importanceScore| > 0.05 then
    ({ episode with importanceScore := newImportance },
     [⟨episode.id, episode.importanceScore, newImportance⟩])
  else (episode, [])

/-- Embeds `MemoryConsolidation.consolidateRecent` over the list returned by
`getRecentEpisodes` (importance updates do not move timestamps, so the same
list is selected by a repeat run): the updated episodes and the recorded
importance adjustments. -/
noncomputable def consolidateRecent (now : ℚ) (recentEpisodes : List Episode) :
    List Episode × List ImportanceAdjustment :=
  (recentEpisodes.map fun e => (consolidateRecentStep now e).1,
   recentEpisodes.flatMap fun e => (consolidateRecentStep now e).2)

/-- Embeds `EpisodicMemory.identifyPatterns`: a time-of-day tag, conversation
group-size tags, and strong-valence tags.  No tag for high importance is
produced here. -/
noncomputable def identifyPatterns (episode : Episode) : List String :=
  (if hourOf episode.timestamp < 6 then ["late_night"]
   else if hourOf episode.timestamp < 12 then ["morning"]
   else if hourOf episode.timestamp < 18 then ["afternoon"]
   else ["evening"]) ++
  (if episode.eventType == "conversation" then
     (if episode.participants.length > 2 then ["group_conversation"]
      else ["one_on_one_conversation"])
   else []) ++
  (if episode.emotionalValence > 0.5 then ["positive_experience"]
   else if episode.emotionalValence < -0.5 then ["negative_experience"]
   else [])

/-- Embeds `EpisodicMemory.recalculateImportance`: bonuses +0.1 positive,
+0.15 negative, +0.05 group conversation, then 30-day exponential decay and
clamping to [0,1]. -/
noncomputable def recalculateImportance (now : ℚ) (episode : Episode)
    (patterns : List String) : ℝ :=
  let importance := episode.importanceScore +
    (if "positive_experience" ∈ patterns then (0.1 : ℝ) else 0) +
    (if "negative_experience" ∈ patterns then (0.15 : ℝ) else 0) +
    (if "group_conversation" ∈ patterns then (0.05 : ℝ) else 0)
  let ageInDays : ℚ := (now - episode.timestamp) / (1000 * 60 * 60 * 24)
  max 0 (min 1 (importance * Real.exp (-(ageInDays : ℝ) / 30)))

/-- Embeds `EpisodicMemory.consolidateMemories` as a store transformer: every
unconsolidated episode (the source fetches them, capped at 50) gets its
importance recalculated and its `is_consolidated` flag set; already
consolidated episodes are untouched. -/
noncomputable def consolidateMemories (now : ℚ) (episodes : List Episode) :
    List Episode :=
  episodes.map fun e =>
    if e.isConsolidated then e
    else { e with importanceScore := recalculateImportance now e (identifyPatterns e),
                  isConsolidated := true }

/-- Modelled from the spec wording of claim C5 (including its alleged "+0.02
for already-high importance" bucket bonus), for comparison against
`recalculateImportance`: clamp01((importance + bonuses) · exp(−age/30)). -/
noncomputable def specImportanceWithHighBonus (now : ℚ) (episode : Episode) : ℝ :=
  let bonuses : ℝ :=
    (if episode.emotionalValence > 0.5 then (0.1 : ℝ) else 0) +
    (if episode.emotionalValence < -0.5 then (0.15 : ℝ) else 0) +
    (if episode.eventType = "conversation" ∧ 2 < episode.participants.length
      then (0.05 : ℝ) else 0) +
    (if episode.importanceScore > 0.7 then (0.02 : ℝ) else 0)
  let ageInDays : ℚ := (now - episode.timestamp) / (1000 * 60 * 60 * 24)
  clamp01 ((episode.importanceScore + bonuses) * Real.exp (-(ageInDays : ℝ) / 30))

/-- The amended C5 formula, stated from the spec's words with the unsupported
"+0.02 already-high" bonus removed: clamp01((importance + 0.1·[positive] +
0.15·[negative] + 0.05·[group conversation]) · exp(−ageDays/30)). -/
noncomputable def specImportanceAmended (now : ℚ) (episode : Episode) : ℝ :=
  let bonuses : ℝ :=
    (if episode.emotionalValence > 0.5 then (0.1 : ℝ) else 0) +
    (if episode.emotionalValence < -0.5 then (0.15 : ℝ) else 0) +
    (if episode.eventType = "conversation" ∧ 2 < episode.participants.length
      then (0.05 : ℝ) else 0)
  let ageInDays : ℚ := (now - episode.timestamp) / (1000 * 60 * 60 * 24)
  clamp01 ((episode.importanceScore + bonuses) * Real.exp (-(ageInDays : ℝ) / 30))

/-! Section 7: EmbeddingGenerator.calculateSimilarity
(src/src/core/vectorstore/EmbeddingGenerator.ts).  Stored embedding
components are JS doubles, modelled as rationals; the computed similarity is
real-valued because of `Math.sqrt`. -/

/-- A JavaScript number that is either NaN or an ordinary value: the possible
results of the cosine computation. -/
inductive SimilarityValue where
  | nan
  | val (x : ℝ)

/-- The dot-product accumulator of `calculateSimilarity`. -/
def dotProduct (embedding1 embedding2 : List ℚ) : ℚ :=
  (List.zipWith (· * ·) embedding1 embedding2).sum

/-- The squared-norm accumulators (`norm1`, `norm2`) of
`calculateSimilarity`. -/
def sumSquares (embedding : List ℚ) : ℚ :=
  (embedding.map fun x => x * x).sum

/-- Embeds `EmbeddingGenerator.calculateSimilarity`.  Mismatched lengths
throw in the source (`none` here).  When `Math.sqrt(norm1) * Math.sqrt(norm2)`
is zero the JS division is `0/0 = NaN` (the dot product is forced to zero by
the zero norm) and the `Math.max/Math.min` clamp propagates the NaN;
otherwise the result is the cosine clamped to [-1, 1]. -/
noncomputable def calculateSimilarity (embedding1 embedding2 : List ℚ) :
    Option SimilarityValue :=
  if embedding1.length ≠ embedding2.length then none
  else if Real.sqrt (sumSquares embedding1) * Real.sqrt (sumSquares embedding2) = 0 then
    some .nan
  else
    some (.val (max (-1) (min 1
      ((dotProduct embedding1 embedding2 : ℝ) /
        (Real.sqrt (sumSquares embedding1) * Real.sqrt (sumSquares embedding2))))))

/-! Section 8: theorems. -/

/-- Both clamp bounds for `clampValue`, shared by the clamping proofs. -/
theorem clampValue_bounds (x : ℚ) : 0 ≤ clampValue x ∧ clampValue x ≤ 1 :=
  ⟨le_max_left 0 _, max_le (by norm_num) (min_le_left 1 x)⟩

/-- Unfolded form of `determineSleepType` with the hour divisor evaluated. -/
theorem determineSleepType_eq (d : ℚ) :
    determineSleepType d =
      if d / 3600000 < 2 then .light_processing
      else if d / 3600000 < 6 then .deep_consolidation
      else if d / 3600000 < 12 then .rem_integration
      else .extended_reorganization := by
  unfold determineSleepType
  norm_num

/-- C2: sleep-type classification is a pure total function of the duration:
the four types partition the duration line at 2, 6 and 12 hours, and the
classification is monotone (a longer duration never maps to an earlier
bracket). -/
theorem determineSleepType_total_monotone (d e : ℚ) :
    ((determineSleepType d = .light_processing ↔ d / 3600000 < 2) ∧
     (determineSleepType d = .deep_consolidation ↔
        2 ≤ d / 3600000 ∧ d / 3600000 < 6) ∧
     (determineSleepType d = .rem_integration ↔
        6 ≤ d / 3600000 ∧ d / 3600000 < 12) ∧
     (determineSleepType d = .extended_reorganization ↔ 12 ≤ d / 3600000)) ∧
    (d ≤ e → (determineSleepType d).bracket ≤ (determineSleepType e).bracket) := by
  constructor
  · rw [determineSleepType_eq]
    refine ⟨?_, ?_, ?_, ?_⟩ <;> split_ifs with h1 h2 h3 <;> simp_all <;>
      first
      | linarith
      | (constructor <;> linarith)
      | (intro h; linarith)
  · intro hde
    have hdiv : d / 3600000 ≤ e / 3600000 :=
      (div_le_div_iff_of_pos_right (by norm_num)).mpr hde
    rw [determineSleepType_eq, determineSleepType_eq]
    split_ifs <;> simp_all [SleepType.bracket] <;> linarith

/-- Witness for C2: a one-hour sleep classifies no later than a two-hour
sleep. -/
theorem determineSleepType_monotone_witness :
    (determineSleepType 3600000).bracket ≤ (determineSleepType 7200000).bracket :=
  (determineSleepType_total_monotone 3600000 7200000).2 (by norm_num)

/-- C9 counterexample: at an elapsed sleep of exactly 30 minutes
(30·60·1000 ms) `PersonaCore.awakePersona` does not trigger a consolidation
pass, because the source condition is the strict `sleepDuration >
30 * 60 * 1000`; the claim asserts the trigger applies at every duration of
at least 30 minutes, so it fails at this input. -/
theorem awakening_thirty_minutes_no_consolidation :
    awakePersonaTriggersConsolidation (30 * 60 * 1000) = false ∧
    (30 * 60 * 1000 : ℚ) ≥ 30 * 60 * 1000 :=
  ⟨decide_eq_false (by norm_num), le_refl _⟩

/-- C9 (amended): awakening triggers the post-sleep consolidation pass if
and only if the elapsed time since `lastSleep` is strictly greater than 30
minutes — at exactly 30 minutes no pass runs — while `handleAwakening` still
sets temporalContinuity to 0.95 for that duration. -/
theorem awakening_trigger_strict (d : ℚ) :
    (awakePersonaTriggersConsolidation d = true ↔ 30 * 60 * 1000 < d) ∧
    calculateTemporalContinuity (30 * 60 * 1000) = 0.95 := by
  constructor
  · simp [awakePersonaTriggersConsolidation]
  · unfold calculateTemporalContinuity
    norm_num

/-- C6 sample knowledge row used by the counterexample and witness. -/
def kSample : SemanticKnowledge :=
  ⟨"know_1", "math", "addition", "\"x\"", 0.5, "experience", []⟩

/-- C6 counterexample: `SemanticMemory.updateKnowledgeConfidence` stores the
caller-supplied confidence unclamped — with input 5 the value written is 5,
outside [0,1], so the claim that every such update writes a value in [0,1]
regardless of input magnitude fails. -/
theorem updateKnowledgeConfidence_not_clamped :
    (updateKnowledgeConfidence [kSample] "know_1" 5).map (·.confidenceLevel)
      = [5] ∧ ¬((5 : ℚ) ≤ 1) := by
  constructor
  · simp [updateKnowledgeConfidence, kSample]
  · norm_num

/-- C6 (amended): consciousness-scalar updates, experience-driven trait
updates and skill success-rate updates all clamp the written value into
[0,1] whatever the caller supplies, but `updateKnowledgeConfidence` writes
the caller's confidence value unchanged (it is in range only when the input
is). -/
theorem update_operations_clamping
    (current : ConsciousnessScalars) (adjustments : ConsciousnessAdjustments)
    (v a : ℚ) (b : Bool)
    (sstore : List ProceduralSkill) (sid : String) (now : ℚ)
    (kstore : List SemanticKnowledge) (kid : String) (c : ℚ) :
    (0 ≤ (updateConsciousnessLevel current adjustments).selfAwareness ∧
      (updateConsciousnessLevel current adjustments).selfAwareness ≤ 1) ∧
    (0 ≤ (updateConsciousnessLevel current adjustments).temporalContinuity ∧
      (updateConsciousnessLevel current adjustments).temporalContinuity ≤ 1) ∧
    (0 ≤ (updateConsciousnessLevel current adjustments).socialCognition ∧
      (updateConsciousnessLevel current adjustments).socialCognition ≤ 1) ∧
    (0 ≤ (updateConsciousnessLevel current adjustments).metacognition ∧
      (updateConsciousnessLevel current adjustments).metacognition ≤ 1) ∧
    (0 ≤ evolvedTraitValue v a ∧ evolvedTraitValue v a ≤ 1) ∧
    (∀ s, updateSkillPerformance sstore sid b now = .ok s →
      ∀ e ∈ s, e.id = sid → 0 ≤ e.successRate ∧ e.successRate ≤ 1) ∧
    (∀ e ∈ updateKnowledgeConfidence kstore kid c, e.id = kid →
      e.confidenceLevel = c) := by
  refine ⟨clampValue_bounds _, clampValue_bounds _, clampValue_bounds _,
    clampValue_bounds _,
    ⟨le_max_left 0 _, max_le (by norm_num) (min_le_left 1 _)⟩, ?_, ?_⟩
  · intro s hs e he hid
    unfold updateSkillPerformance at hs
    cases hfind : findSkill sstore sid with
    | none =>
      rw [hfind] at hs
      injection hs with hs
      subst hs
      exfalso
      have := List.find?_eq_none.mp hfind e he
      simp [hid] at this
    | some skill =>
      rw [hfind] at hs
      injection hs with hs
      subst hs
      obtain ⟨e₀, _, he₀⟩ := List.mem_map.mp he
      by_cases hb : e₀.id = sid
      · rw [if_pos (by simp [hb])] at he₀
        rw [← he₀]
        exact ⟨le_max_left 0 _, max_le (by norm_num) (min_le_left 1 _)⟩
      · rw [if_neg (by simp [hb])] at he₀
        rw [← he₀] at hid
        exact absurd hid hb
  · intro e he hid
    unfold updateKnowledgeConfidence at he
    obtain ⟨e₀, _, he₀⟩ := List.mem_map.mp he
    by_cases hb : e₀.id = kid
    · rw [if_pos (by simp [hb])] at he₀
      rw [← he₀]
    · rw [if_neg (by simp [hb])] at he₀
      rw [← he₀] at hid
      exact absurd hid hb

/-- Witness for C6 (amended): concrete instantiation — the trait update of
value 1/2 by adjustment 100 stays in [0,1], and updating `kSample`'s
confidence to 3/4 writes exactly 3/4. -/
theorem update_operations_clamping_witness :
    (0 ≤ evolvedTraitValue (1/2) 100 ∧ evolvedTraitValue (1/2) 100 ≤ 1) ∧
    ({ kSample with confidenceLevel := (3/4 : ℚ) }).confidenceLevel = 3/4 := by
  have h := update_operations_clamping ⟨0, 0, 0, 0⟩ ⟨none, none, none, none⟩
    (1/2) 100 true [] "s" 0 [kSample] "know_1" (3/4)
  refine ⟨h.2.2.2.2.1, ?_⟩
  apply h.2.2.2.2.2.2
  · simp [updateKnowledgeConfidence, kSample]
  · rfl

/-- C8 counterexample: with an empty skill store (so the id is absent),
`updateSkillPerformance` returns successfully with no write — an `.ok`
result, not a NotFound error — refuting the claim that the absence is
surfaced as an error. -/
theorem updateSkillPerformance_missing_skill_ok :
    updateSkillPerformance [] "skill_1" true 0 = .ok [] := rfl

/-- C8 (amended): when the referenced skill id is absent from the store,
`updateSkillPerformance` logs a warning and returns successfully with the
store unchanged (a silent no-op); no NotFound error reaches the caller. -/
theorem updateSkillPerformance_missing_skill_noop
    (store : List ProceduralSkill) (skillId : String) (b : Bool) (now : ℚ)
    (h : findSkill store skillId = none) :
    updateSkillPerformance store skillId b now = .ok store := by
  unfold updateSkillPerformance
  rw [h]

/-- Witness for C8 (amended): concrete no-op on the empty store. -/
theorem updateSkillPerformance_noop_witness :
    updateSkillPerformance [] "skill_2" false 0 = .ok [] :=
  updateSkillPerformance_missing_skill_noop [] "skill_2" false 0 rfl

/-- C10: a stored skill whose `contextConditions` list is empty is returned
by `getApplicableSkills` for every caller context-tag list (and any domain
filter it satisfies): an unconditioned skill applies to every context. -/
theorem getApplicableSkills_includes_unconditioned
    (store : List ProceduralSkill) (context : List String)
    (domain : Option String) (skill : ProceduralSkill)
    (hmem : skill ∈ store) (hempty : skill.contextConditions = [])
    (hdom : ∀ d, domain = some d → skill.domain = d) :
    skill ∈ getApplicableSkills store context domain := by
  have hctx : contextMatches context skill.contextConditions = true := by
    simp [contextMatches, hempty]
  cases domain with
  | none =>
    unfold getApplicableSkills
    rw [List.mem_filter]
    exact ⟨(List.mergeSort_perm store skillOrder).mem_iff.mpr hmem, hctx⟩
  | some d =>
    unfold getApplicableSkills
    rw [List.mem_filter]
    refine ⟨(List.mergeSort_perm _ skillOrder).mem_iff.mpr ?_, hctx⟩
    rw [List.mem_filter]
    exact ⟨hmem, by simp [hdom d rfl]⟩

/-- Membership is preserved by the set-based deduplication fold. -/
theorem mem_dedup_foldl (l : List String) (acc : List String) (r : String) :
    (r ∈ l.foldl (fun acc w => if acc.contains w then acc else acc ++ [w]) acc) ↔
      r ∈ acc ∨ r ∈ l := by
  induction l generalizing acc with
  | nil => simp
  | cons w ws ih =>
    rw [List.foldl_cons]
    by_cases h : acc.contains w
    · rw [if_pos h, ih]
      constructor
      · rintro (h1 | h1)
        · exact Or.inl h1
        · exact Or.inr (List.mem_cons_of_mem _ h1)
      · rintro (h1 | h1)
        · exact Or.inl h1
        · rcases List.mem_cons.mp h1 with rfl | h2
          · exact Or.inl (by simpa using h)
          · exact Or.inr h2
    · rw [if_neg h, ih]
      simp only [List.mem_append, List.mem_singleton, List.mem_cons]
      tauto

/-- Membership characterization of `dedupFirst`. -/
theorem mem_dedupFirst (l : List String) (r : String) :
    r ∈ dedupFirst l ↔ r ∈ l := by
  unfold dedupFirst
  rw [mem_dedup_foldl]
  simp

/-- The `reduce`-selected primary is one of the group entries. -/
theorem primaryOf_mem (t : List SemanticKnowledge) (h : SemanticKnowledge) :
    primaryOf h t ∈ h :: t := by
  induction t generalizing h with
  | nil => simp [primaryOf]
  | cons c cs ih =>
    unfold primaryOf
    rw [List.foldl_cons]
    have step := ih (if c.confidenceLevel > h.confidenceLevel then c else h)
    unfold primaryOf at step
    rcases List.mem_cons.mp step with h1 | h1
    · rw [h1]
      split_ifs
      · exact List.mem_cons_of_mem _ (List.mem_cons_self _ _)
      · exact List.mem_cons_self _ _
    · exact List.mem_cons_of_mem _ (List.mem_cons_of_mem _ h1)

/-- Filtering out the rows sharing an id with a group member removes exactly
one row when the ids are distinct. -/
theorem length_filter_ne_id (l : List SemanticKnowledge) (p : SemanticKnowledge)
    (hmem : p ∈ l) (hnodup : (l.map (·.id)).Nodup) :
    (l.filter fun e => e.id != p.id).length = l.length - 1 := by
  induction l with
  | nil => cases hmem
  | cons x xs ih =>
    rw [List.map_cons, List.nodup_cons] at hnodup
    rcases List.mem_cons.mp hmem with h | h
    · subst h
      have hall : ∀ e ∈ xs, (e.id != p.id) = true := by
        intro e he
        simp only [bne_iff_ne, ne_eq]
        intro hEq
        exact hnodup.1 (hEq ▸ List.mem_map_of_mem _ he)
      simp only [List.filter_cons, bne_self_eq_false, if_false,
        Bool.false_eq_true, List.filter_eq_self.mpr hall, List.length_cons]
      simp
    · have hx : (x.id != p.id) = true := by
        simp only [bne_iff_ne, ne_eq]
        intro hEq
        exact hnodup.1 (hEq ▸ List.mem_map_of_mem _ h)
      simp only [List.filter_cons, hx, if_true, List.length_cons, ih h hnodup.2]
      have := List.length_pos.mpr (List.ne_nil_of_mem h)
      omega

/-- Evaluation of `mergeKnowledgeEntries` on a group of at least two
entries. -/
theorem mergeKnowledgeEntries_cons
    (h : SemanticKnowledge) (t : List SemanticKnowledge) (hne : t ≠ []) :
    mergeKnowledgeEntries (h :: t) =
      some ({ primaryOf h t with
                content := mergedContentStr (primaryOf h t).content
                  (((h :: t).filter fun e =>
                      e.id != (primaryOf h t).id).map (·.content)),
                relationships := dedupFirst ((primaryOf h t).relationships ++
                  ((h :: t).filter fun e =>
                      e.id != (primaryOf h t).id).flatMap (·.relationships)),
                confidenceLevel := min 1 ((primaryOf h t).confidenceLevel +
                  ((((h :: t).filter fun e =>
                      e.id != (primaryOf h t).id).length : ℚ)) * 0.05) },
            ((h :: t).filter fun e => e.id != (primaryOf h t).id).map (·.id)) := by
  have hlen2 : ¬((h :: t).length < 2) := by
    have := List.length_pos.mpr hne
    simp only [List.length_cons]
    omega
  unfold mergeKnowledgeEntries
  rw [if_neg hlen2]

/-- Evaluation of `applyMerge` once the group merge result is known. -/
theorem applyMerge_eq (store : List SemanticKnowledge) (vec : List String)
    (group : List SemanticKnowledge) (u : SemanticKnowledge) (d : List String)
    (hm : mergeKnowledgeEntries group = some (u, d)) :
    applyMerge store vec group =
      ((store.filter fun e => !(d.contains e.id)).map
         (fun e => if e.id == u.id then u else e),
       vec.filter fun i => !(d.contains i)) := by
  unfold applyMerge
  rw [hm]

/-- C7: the merge postconditions of `SemanticMemory.mergeKnowledgeEntries`.
For a group of N ≥ 2 entries with pairwise distinct ids and stored (≤ 1)
confidences, the merge succeeds; the surviving primary keeps its id, absorbs
N−1 entries, ends with confidence min(1, primary + 0.05·(N−1)) which is at
least the original primary confidence, and carries the union of all the
group's relationships; applied to a store and a vector index, the merge
never increases either entry count and the absorbed ids disappear from
both. -/
theorem mergeKnowledgeEntries_postconditions
    (h : SemanticKnowledge) (t : List SemanticKnowledge)
    (hne : t ≠ [])
    (hnodup : ((h :: t).map (·.id)).Nodup)
    (hconf : ∀ e ∈ h :: t, e.confidenceLevel ≤ 1) :
    ∃ updated deletedIds,
      mergeKnowledgeEntries (h :: t) = some (updated, deletedIds) ∧
      updated.id = (primaryOf h t).id ∧
      deletedIds.length = t.length ∧
      updated.confidenceLevel =
        min 1 ((primaryOf h t).confidenceLevel + (t.length : ℚ) * 0.05) ∧
      (primaryOf h t).confidenceLevel ≤ updated.confidenceLevel ∧
      (∀ r, r ∈ updated.relationships ↔ ∃ e ∈ h :: t, r ∈ e.relationships) ∧
      (∀ store vec,
        ((applyMerge store vec (h :: t)).1.length ≤ store.length ∧
         (applyMerge store vec (h :: t)).2.length ≤ vec.length) ∧
        ∀ i ∈ deletedIds,
          (∀ e ∈ (applyMerge store vec (h :: t)).1, e.id ≠ i) ∧
          i ∉ (applyMerge store vec (h :: t)).2) := by
  have heq := mergeKnowledgeEntries_cons h t hne
  have hpmem : primaryOf h t ∈ h :: t := primaryOf_mem t h
  have hothlen :
      ((h :: t).filter fun e => e.id != (primaryOf h t).id).length = t.length := by
    rw [length_filter_ne_id (h :: t) (primaryOf h t) hpmem hnodup]
    simp
  have hinj := List.inj_on_of_nodup_map hnodup
  refine ⟨_, _, heq, rfl, ?_, ?_, ?_, ?_, ?_⟩
  · rw [List.length_map, hothlen]
  · simp only [hothlen]
  · simp only [hothlen]
    exact le_min (hconf _ hpmem) (le_add_of_nonneg_right (by positivity))
  · intro r
    simp only
    rw [mem_dedupFirst, List.mem_append, List.mem_flatMap]
    constructor
    · rintro (hr | ⟨o, ho, hr⟩)
      · exact ⟨primaryOf h t, hpmem, hr⟩
      · exact ⟨o, (List.mem_filter.mp ho).1, hr⟩
    · rintro ⟨e, he, hr⟩
      by_cases hid : e.id = (primaryOf h t).id
      · have heqp : e = primaryOf h t := hinj he hpmem hid
        exact Or.inl (heqp ▸ hr)
      · exact Or.inr ⟨e,
          List.mem_filter.mpr ⟨he, by simp [bne_iff_ne, hid]⟩, hr⟩
  · intro store vec
    have hdel : ∀ i ∈ ((h :: t).filter fun e =>
        e.id != (primaryOf h t).id).map (·.id), i ≠ (primaryOf h t).id := by
      intro i hi
      obtain ⟨o, ho, rfl⟩ := List.mem_map.mp hi
      have := (List.mem_filter.mp ho).2
      simpa [bne_iff_ne] using this
    rw [applyMerge_eq store vec _ _ _ heq]
    constructor
    · constructor
      · simp only [List.length_map]
        exact List.length_filter_le _ _
      · exact List.length_filter_le _ _
    · intro i hi
      constructor
      · intro e he
        obtain ⟨e₀, he₀, rfl⟩ := List.mem_map.mp he
        have hfil := List.mem_filter.mp he₀
        by_cases hb : e₀.id = (primaryOf h t).id
        · rw [if_pos (by simp [hb])]
          exact fun hEq => hdel i hi hEq.symm
        · rw [if_neg (by simp [hb])]
          intro hEq
          have hnc : e₀.id ∉ ((h :: t).filter fun e =>
              e.id != (primaryOf h t).id).map (·.id) := by
            simpa using hfil.2
          exact hnc (hEq ▸ hi)
      · intro hvec
        have hnc : i ∉ ((h :: t).filter fun e =>
            e.id != (primaryOf h t).id).map (·.id) := by
          simpa using (List.mem_filter.mp hvec).2
        exact hnc hi

/-- C7 witness group: two same-concept math entries with distinct ids. -/
def kMergeA : SemanticKnowledge :=
  ⟨"know_a", "math", "addition", "\"pppp\"", 0.9, "experience", ["r1"]⟩

/-- Second entry of the C7 witness group. -/
def kMergeB : SemanticKnowledge :=
  ⟨"know_b", "math", "addition", "\"qqqq\"", 0.6, "experience", ["r2"]⟩

/-- Witness for C7: the postconditions instantiated on a concrete two-entry
group. -/
theorem mergeKnowledgeEntries_postconditions_witness :
    ∃ updated deletedIds,
      mergeKnowledgeEntries [kMergeA, kMergeB] = some (updated, deletedIds) ∧
      (primaryOf kMergeA [kMergeB]).confidenceLevel ≤ updated.confidenceLevel := by
  obtain ⟨u, d, heq, _, _, _, hge, _, _⟩ :=
    mergeKnowledgeEntries_postconditions kMergeA [kMergeB] (by simp)
      (by simp [kMergeA, kMergeB])
      (by intro e he
          rcases List.mem_cons.mp he with rfl | he2
          · norm_num [kMergeA]
          · rcases List.mem_cons.mp he2 with rfl | he3
            · norm_num [kMergeB]
            · cases he3)
  exact ⟨u, d, heq, hge⟩

/-- C4 counterexample rows: same concept (case-insensitively), domain math,
confidences 0.9/0.6, but contents sharing no words of more than three
characters. -/
def c4NoMergeA : SemanticKnowledge :=
  ⟨"know_1", "math", "addition", "\"zzzz\"", 0.9, "experience", []⟩

/-- Second C4 counterexample row. -/
def c4NoMergeB : SemanticKnowledge :=
  ⟨"know_2", "math", "ADDITION", "\"qqqq\"", 0.6, "experience", []⟩

/-- C4 counterexample: two entries in domain "math" with the same concept
name "addition" (case-insensitively) and confidences 0.9/0.6 but disjoint
content words have similarity 0.7 ≤ 0.8, so `consolidateKnowledge` merges
nothing and leaves two entries — not the one entry with confidence 0.95 the
claim asserts. -/
theorem consolidateKnowledge_no_merge_on_disjoint_content :
    consolidateKnowledge [c4NoMergeA, c4NoMergeB] [] =
      ([c4NoMergeA, c4NoMergeB], []) ∧
    ([c4NoMergeA, c4NoMergeB] : List SemanticKnowledge).length ≠ 1 := by
  have hcs : contentSimilarityOf c4NoMergeA c4NoMergeB = 0 := by
    have h1 : (findCommonWords (strToLower c4NoMergeA.content)
        (strToLower c4NoMergeB.content)).length = 0 := by decide
    unfold contentSimilarityOf
    rw [h1]
    simp
  have hsim : calculateConceptSimilarity c4NoMergeA c4NoMergeB = 7/10 := by
    have hconcept : (strToLower c4NoMergeA.concept ==
        strToLower c4NoMergeB.concept) = true := by decide
    unfold calculateConceptSimilarity
    rw [hconcept, hcs]
    norm_num
  have hdec : decide (calculateConceptSimilarity c4NoMergeA c4NoMergeB > 0.8)
      = false := by
    apply decide_eq_false
    rw [hsim]
    norm_num
  have hcand : findConsolidationCandidates [c4NoMergeA, c4NoMergeB] = [] := by
    simp [findConsolidationCandidates, hdec]
  constructor
  · simp [consolidateKnowledge, hcand]
  · simp

/-- C4 (amended): the consolidation scenario merges the two entries only
when the similarity exceeds 0.8, i.e. when, in addition to the equal concept
names, the serialized contents share enough longer-than-three-character
words that the overlap ratio exceeds 1/3.  In that case exactly one entry
survives, keeping the high-confidence primary's id with confidence
min(1, 0.9 + 0.05) = 0.95. -/
theorem consolidateKnowledge_merges_same_concept_overlapping
    (k1 k2 : SemanticKnowledge)
    (hdom1 : k1.domain = "math") (hdom2 : k2.domain = "math")
    (hc : strToLower k1.concept = strToLower k2.concept)
    (hconf1 : k1.confidenceLevel = 0.9) (hconf2 : k2.confidenceLevel = 0.6)
    (hid : k1.id ≠ k2.id)
    (hover : 1/3 < contentSimilarityOf k1 k2) :
    (consolidateKnowledge [k1, k2] []).1.length = 1 ∧
    ∀ e ∈ (consolidateKnowledge [k1, k2] []).1,
      e.id = k1.id ∧ e.confidenceLevel = 0.95 := by
  have hsim : calculateConceptSimilarity k1 k2 > 0.8 := by
    unfold calculateConceptSimilarity
    rw [hc]
    simp only [beq_self_eq_true, if_true]
    linarith
  have hdec : decide (calculateConceptSimilarity k1 k2 > 0.8) = true :=
    decide_eq_true hsim
  have hcand : findConsolidationCandidates [k1, k2] = [[k1, k2]] := by
    simp [findConsolidationCandidates, hdec, hdom1, hdom2]
  have hprim : primaryOf k1 [k2] = k1 := by
    unfold primaryOf
    rw [List.foldl_cons, List.foldl_nil, if_neg]
    rw [hconf1, hconf2]
    norm_num
  have hmerge := mergeKnowledgeEntries_cons k1 [k2] (by simp)
  have hoth : ([k1, k2].filter fun e => e.id != k1.id) = [k2] := by
    simp [List.filter_cons, bne_self_eq_false, bne_iff_ne, Ne.symm hid]
  rw [hprim, hoth] at hmerge
  simp only [List.map_cons, List.map_nil, List.flatMap_cons, List.flatMap_nil,
    List.length_cons, List.length_nil] at hmerge
  have hfold : consolidateKnowledge [k1, k2] [] =
      applyMerge [k1, k2] [] [k1, k2] := by
    unfold consolidateKnowledge
    rw [hcand, List.foldl_cons, List.foldl_nil]
  rw [hfold, applyMerge_eq [k1, k2] [] [k1, k2] _ _ hmerge]
  have hfil : ([k1, k2].filter fun e => !([k2.id].contains e.id)) = [k1] := by
    simp [List.filter_cons, hid, Ne.symm hid]
  rw [hfil]
  constructor
  · simp
  · intro e he
    simp only [List.map_cons, List.map_nil, beq_self_eq_true, if_true,
      List.mem_singleton] at he
    subst he
    refine ⟨rfl, ?_⟩
    simp only [hconf1]
    norm_num

/-- C4 witness rows: same concept, overlapping contents (shared word
"aaaa", overlap ratio 1/2 > 1/3). -/
def c4MergeA : SemanticKnowledge :=
  ⟨"know_3", "math", "addition", "\"aaaa bbbb\"", 0.9, "experience", []⟩

/-- Second C4 witness row. -/
def c4MergeB : SemanticKnowledge :=
  ⟨"know_4", "math", "addition", "\"aaaa cccc\"", 0.6, "experience", []⟩

/-- Witness for C4 (amended): on the concrete overlapping pair exactly one
entry survives consolidation. -/
theorem consolidateKnowledge_merges_witness :
    (consolidateKnowledge [c4MergeA, c4MergeB] []).1.length = 1 := by
  have hover : (1 : ℚ)/3 < contentSimilarityOf c4MergeA c4MergeB := by
    have h1 : (findCommonWords (strToLower c4MergeA.content)
        (strToLower c4MergeB.content)).length = 1 := by decide
    have h2 : (max (splitSpacesLen (strToLower c4MergeA.content))
        (splitSpacesLen (strToLower c4MergeB.content))) = 2 := by decide
    unfold contentSimilarityOf
    rw [h1, ← Nat.cast_max, h2]
    norm_num
  exact (consolidateKnowledge_merges_same_concept_overlapping c4MergeA c4MergeB
    rfl rfl rfl rfl rfl (by decide) hover).1

/-- C10 sample skill used by the witness. -/
def skillSample : ProceduralSkill := ⟨"skill_1", "greet", "general", 1/2, [], 3, 0⟩

/-- Witness for C10: the unconditioned sample skill is applicable to an
arbitrary concrete context. -/
theorem getApplicableSkills_includes_witness :
    skillSample ∈ getApplicableSkills [skillSample] ["anything"] none :=
  getApplicableSkills_includes_unconditioned [skillSample] ["anything"] none
    skillSample (by simp) rfl (fun d h => nomatch h)

/-- An episode untouched by a `consolidateRecent` step is one whose step
records no adjustment. -/
theorem consolidateRecentStep_fst_of_snd_nil (now : ℚ) (e : Episode)
    (h2 : (consolidateRecentStep now e).2 = []) :
    (consolidateRecentStep now e).1 = e := by
  simp only [consolidateRecentStep] at h2 ⊢
  split_ifs at h2 ⊢ with hc
  all_goals first
  | rfl
  | simp at h2

/-- C1 (amended): with the clock fixed and no new episodes stored in
between, a second `consolidateRecent` run leaves every importance score
unchanged and records no adjustments provided the first run recorded no
non-trivial adjustments (deltas of at most 0.05 are not persisted).  Without
that proviso the second run re-applies the pattern bonuses on top of the
persisted scores and can change them again (see the counterexample). -/
theorem consolidateRecent_idempotent_of_no_adjustments
    (now : ℚ) (eps : List Episode)
    (h : (consolidateRecent now eps).2 = []) :
    (consolidateRecent now eps).1 = eps ∧
    consolidateRecent now (consolidateRecent now eps).1 = (eps, []) := by
  have hflat : (eps.flatMap fun e => (consolidateRecentStep now e).2) = [] := h
  have hall : ∀ e ∈ eps, (consolidateRecentStep now e).2 = [] :=
    fun e he => List.flatMap_eq_nil_iff.mp hflat e he
  have hfst : (consolidateRecent now eps).1 = eps := by
    show (eps.map fun e => (consolidateRecentStep now e).1) = eps
    conv_rhs => rw [← List.map_id eps]
    exact List.map_congr_left fun e he =>
      consolidateRecentStep_fst_of_snd_nil now e (hall e he)
  refine ⟨hfst, ?_⟩
  rw [hfst]
  exact Prod.ext_iff.mpr ⟨hfst, h⟩

/-- C1 counterexample episode: a fresh positive conversation episode with
importance 0.5 stored at the (mocked) current instant. -/
def c1CounterEp : Episode := ⟨"e1", 0, "conversation", 0.8, 0.5, [], false⟩

/-- C1 counterexample: with the clock fixed at the episode's timestamp, the
first `consolidateRecent` run lifts the importance 0.5 → 0.58 (bonuses
+0.05 positive and +0.03 pattern reinforcement, no decay), and the second
run — with no new episodes in between — re-applies the same bonuses, records
another non-trivial adjustment and changes the persisted score again
(0.58 → 0.66), refuting idempotence. -/
theorem consolidateRecent_second_run_adjusts :
    (consolidateRecent 0 ((consolidateRecent 0 [c1CounterEp]).1)).2 ≠ [] ∧
    (consolidateRecent 0 ((consolidateRecent 0 [c1CounterEp]).1)).1.map
        Episode.importanceScore ≠
      ((consolidateRecent 0 [c1CounterEp]).1).map Episode.importanceScore := by
  have hpat1 : identifyBasicPatterns c1CounterEp =
      ["late_night_activity", "event_type_conversation",
       "positive_emotional_experience"] := by
    norm_num +decide [identifyBasicPatterns, hourOf, c1CounterEp]
  have hcalc1 : calculateConsolidatedImportance 0 c1CounterEp
      (identifyBasicPatterns c1CounterEp) = 0.58 := by
    rw [hpat1]
    norm_num +decide [calculateConsolidatedImportance, c1CounterEp, Real.exp_zero]
  have habs1 : |(0.58 : ℝ) - c1CounterEp.importanceScore| > 0.05 := by
    have hd : (0.58 : ℝ) - c1CounterEp.importanceScore = 0.08 := by
      norm_num [c1CounterEp]
    rw [hd, abs_of_nonneg (by norm_num)]
    norm_num
  have hstep1 : consolidateRecentStep 0 c1CounterEp =
      ({ c1CounterEp with importanceScore := 0.58 },
       [⟨"e1", c1CounterEp.importanceScore, 0.58⟩]) := by
    simp only [consolidateRecentStep]
    rw [hcalc1, if_pos habs1]
    rfl
  have hrun1 : consolidateRecent 0 [c1CounterEp] =
      ([{ c1CounterEp with importanceScore := 0.58 }],
       [⟨"e1", c1CounterEp.importanceScore, 0.58⟩]) := by
    unfold consolidateRecent
    rw [List.map_cons, List.map_nil, List.flatMap_cons, List.flatMap_nil, hstep1]
    rfl
  have hpat2 : identifyBasicPatterns { c1CounterEp with importanceScore := 0.58 } =
      ["late_night_activity", "event_type_conversation",
       "positive_emotional_experience"] := by
    norm_num +decide [identifyBasicPatterns, hourOf, c1CounterEp]
  have hcalc2 : calculateConsolidatedImportance 0
      { c1CounterEp with importanceScore := 0.58 }
      (identifyBasicPatterns { c1CounterEp with importanceScore := 0.58 })
      = 0.66 := by
    rw [hpat2]
    norm_num +decide [calculateConsolidatedImportance, c1CounterEp, Real.exp_zero]
  have habs2 : |(0.66 : ℝ) -
      ({ c1CounterEp with importanceScore := 0.58 } : Episode).importanceScore|
      > 0.05 := by
    have hd : (0.66 : ℝ) -
        ({ c1CounterEp with importanceScore := 0.58 } : Episode).importanceScore
        = 0.08 := by norm_num
    rw [hd, abs_of_nonneg (by norm_num)]
    norm_num
  have hstep2 : consolidateRecentStep 0 { c1CounterEp with importanceScore := 0.58 } =
      ({ c1CounterEp with importanceScore := 0.66 },
       [⟨"e1", (0.58 : ℝ), 0.66⟩]) := by
    simp only [consolidateRecentStep]
    rw [hcalc2, if_pos habs2]
    rfl
  have hrun2 : consolidateRecent 0 [{ c1CounterEp with importanceScore := 0.58 }] =
      ([{ c1CounterEp with importanceScore := 0.66 }],
       [⟨"e1", (0.58 : ℝ), 0.66⟩]) := by
    unfold consolidateRecent
    rw [List.map_cons, List.map_nil, List.flatMap_cons, List.flatMap_nil, hstep2]
    rfl
  constructor
  · simp only [hrun1, hrun2]
    simp
  · simp only [hrun1, hrun2, List.map_cons, List.map_nil]
    intro hEq
    simp only [List.cons.injEq, and_true] at hEq
    norm_num at hEq

/-- C1 witness episode: an empty-typed neutral episode of importance 0 whose
recomputed importance moves by only 0.01, below the persistence threshold. -/
def c1QuietEp : Episode := ⟨"e0", 0, "", 0, 0, [], false⟩

/-- Witness for C1 (amended): on the quiet episode the first run records no
adjustments, and the second run is the identity. -/
theorem consolidateRecent_idempotent_witness :
    (consolidateRecent 0 [c1QuietEp]).2 = [] ∧
    consolidateRecent 0 (consolidateRecent 0 [c1QuietEp]).1 = ([c1QuietEp], []) := by
  have hpat : identifyBasicPatterns c1QuietEp = ["late_night_activity"] := by
    norm_num +decide [identifyBasicPatterns, hourOf, c1QuietEp]
  have hcalc : calculateConsolidatedImportance 0 c1QuietEp
      (identifyBasicPatterns c1QuietEp) = 0.01 := by
    rw [hpat]
    norm_num +decide [calculateConsolidatedImportance, c1QuietEp, Real.exp_zero]
  have habs : ¬(|(0.01 : ℝ) - c1QuietEp.importanceScore| > 0.05) := by
    have hd : (0.01 : ℝ) - c1QuietEp.importanceScore = 0.01 := by
      norm_num [c1QuietEp]
    rw [hd, abs_of_nonneg (by norm_num)]
    norm_num
  have hstep : consolidateRecentStep 0 c1QuietEp = (c1QuietEp, []) := by
    simp only [consolidateRecentStep]
    rw [hcalc, if_neg habs]
  have hnil : (consolidateRecent 0 [c1QuietEp]).2 = [] := by
    show ([c1QuietEp].flatMap fun e => (consolidateRecentStep 0 e).2) = []
    rw [List.flatMap_cons, List.flatMap_nil, hstep]
    rfl
  exact ⟨hnil,
    (consolidateRecent_idempotent_of_no_adjustments 0 [c1QuietEp] hnil).2⟩

/-- Membership characterizations for the episodic pattern tags: exactly the
tags the bonus computation looks up, in terms of the episode's fields. -/
theorem identifyPatterns_mem_iffs (e : Episode) :
    (("positive_experience" ∈ identifyPatterns e) ↔ e.emotionalValence > 0.5) ∧
    (("negative_experience" ∈ identifyPatterns e) ↔ e.emotionalValence < -0.5) ∧
    (("group_conversation" ∈ identifyPatterns e) ↔
      (e.eventType = "conversation" ∧ 2 < e.participants.length)) := by
  unfold identifyPatterns
  split_ifs <;> simp_all +decide [beq_iff_eq] <;> linarith

/-- The episodic importance recalculation agrees pointwise with the amended
spec formula (bonuses +0.1 positive, +0.15 negative, +0.05 group
conversation, 30-day decay, clamped). -/
theorem recalculateImportance_eq_spec (now : ℚ) (e : Episode) :
    recalculateImportance now e (identifyPatterns e) =
      specImportanceAmended now e := by
  obtain ⟨hpos, hneg, hgrp⟩ := identifyPatterns_mem_iffs e
  simp only [recalculateImportance, specImportanceAmended, clamp01, hpos, hneg,
    hgrp]
  ring_nf

/-- C5 (amended): every unconsolidated episode processed by the episodic
`consolidateMemories` is persisted with importance
clamp01((importance + 0.1·[positive] + 0.15·[negative] + 0.05·[group
conversation]) · exp(−ageDays/30)) and its `isConsolidated` flag set;
consolidated episodes are untouched.  The claim's additional "+0.02 for
already-high importance" bonus does not exist in this pass (see the
counterexample). -/
theorem consolidateMemories_importance_formula (now : ℚ) (episodes : List Episode) :
    consolidateMemories now episodes = episodes.map fun e =>
      if e.isConsolidated then e
      else { e with importanceScore := specImportanceAmended now e,
                    isConsolidated := true } := by
  unfold consolidateMemories
  apply List.map_congr_left
  intro e _
  by_cases hc : e.isConsolidated
  · rw [if_pos hc, if_pos hc]
  · rw [if_neg hc, if_neg hc, recalculateImportance_eq_spec]

/-- C5 counterexample episode: unconsolidated, importance 0.8 (already
high), neutral valence, not a conversation, stored at the current instant. -/
def c5Ep : Episode := ⟨"e5", 0, "task_completion", 0, 0.8, [], false⟩

/-- C5 counterexample: on an already-high-importance episode the code
persists clamp01(0.8 · 1) = 0.8, while the claim's formula (with its "+0.02
already-high" bucket bonus) demands clamp01((0.8 + 0.02) · 1) = 0.82: the
persisted value differs from the claimed one at this input. -/
theorem recalculateImportance_no_high_importance_bonus :
    (consolidateMemories 0 [c5Ep]).map Episode.importanceScore = [0.8] ∧
    specImportanceWithHighBonus 0 c5Ep = 0.82 ∧
    ((0.8 : ℝ) ≠ 0.82) := by
  have hpat : identifyPatterns c5Ep = ["late_night"] := by
    norm_num +decide [identifyPatterns, hourOf, c5Ep]
  have hrecalc : recalculateImportance 0 c5Ep (identifyPatterns c5Ep) = 0.8 := by
    rw [hpat]
    norm_num +decide [recalculateImportance, c5Ep, Real.exp_zero]
  refine ⟨?_, ?_, by norm_num⟩
  · simp only [consolidateMemories, List.map_cons, List.map_nil]
    rw [if_neg (by simp [c5Ep])]
    simp only [List.map_cons, List.map_nil]
    rw [hrecalc]
  · norm_num +decide [specImportanceWithHighBonus, clamp01, c5Ep, Real.exp_zero]

/-- Squared norms are nonnegative. -/
theorem sumSquares_nonneg (e : List ℚ) : 0 ≤ sumSquares e := by
  unfold sumSquares
  apply List.sum_nonneg
  intro x hx
  obtain ⟨y, _, rfl⟩ := List.mem_map.mp hx
  exact mul_self_nonneg y

/-- C3 counterexample: on the zero vector paired with a unit vector the
source divides 0 by 0, yielding NaN — not the defined score 0 the claim
requires for zero-norm inputs. -/
theorem calculateSimilarity_zero_norm_not_zero :
    calculateSimilarity [0] [1] = some SimilarityValue.nan ∧
    some SimilarityValue.nan ≠ some (SimilarityValue.val 0) := by
  constructor
  · have h0 : sumSquares [0] = 0 := by norm_num [sumSquares]
    unfold calculateSimilarity
    rw [if_neg (by simp), if_pos]
    rw [h0]
    simp [Real.sqrt_zero]
  · intro hEq
    injection hEq with hEq
    exact SimilarityValue.noConfusion hEq

/-- C3 (amended): for equal-length embeddings `calculateSimilarity` returns
the cosine clamped to [-1, 1] whenever both vectors have nonzero norm; when
at least one norm is zero the JS computation is 0/0 and the result is NaN,
not 0. -/
theorem calculateSimilarity_clamped_or_nan (e1 e2 : List ℚ)
    (hlen : e1.length = e2.length) :
    (sumSquares e1 = 0 ∨ sumSquares e2 = 0 →
      calculateSimilarity e1 e2 = some SimilarityValue.nan) ∧
    (sumSquares e1 ≠ 0 → sumSquares e2 ≠ 0 →
      ∃ x, calculateSimilarity e1 e2 = some (SimilarityValue.val x) ∧
        -1 ≤ x ∧ x ≤ 1) := by
  constructor
  · intro h
    have hden : Real.sqrt (sumSquares e1) * Real.sqrt (sumSquares e2) = 0 := by
      rcases h with h | h <;> rw [h] <;> simp [Real.sqrt_zero]
    unfold calculateSimilarity
    rw [if_neg (by simp [hlen]), if_pos hden]
  · intro h1 h2
    have hpos1 : (0 : ℝ) < sumSquares e1 :=
      lt_of_le_of_ne (by exact_mod_cast sumSquares_nonneg e1)
        (by exact_mod_cast Ne.symm h1)
    have hpos2 : (0 : ℝ) < sumSquares e2 :=
      lt_of_le_of_ne (by exact_mod_cast sumSquares_nonneg e2)
        (by exact_mod_cast Ne.symm h2)
    have hden : Real.sqrt (sumSquares e1) * Real.sqrt (sumSquares e2) ≠ 0 :=
      mul_ne_zero (ne_of_gt (Real.sqrt_pos.mpr hpos1))
        (ne_of_gt (Real.sqrt_pos.mpr hpos2))
    unfold calculateSimilarity
    rw [if_neg (by simp [hlen]), if_neg hden]
    exact ⟨_, rfl, le_max_left _ _, max_le (by norm_num) (min_le_left _ _)⟩

/-- Witness for C3 (amended): the one-dimensional unit embeddings have
nonzero norms and get a clamped similarity value. -/
theorem calculateSimilarity_clamped_witness :
    sumSquares [1] ≠ 0 ∧
    ∃ x, calculateSimilarity [1] [1] = some (SimilarityValue.val x) ∧
      -1 ≤ x ∧ x ≤ 1 := by
  have hne : sumSquares [1] ≠ (0 : ℚ) := by norm_num [sumSquares]
  exact ⟨hne, (calculateSimilarity_clamped_or_nan [1] [1] rfl).2 hne hne⟩

end ZV5
